import Mathlib

/-!
Shallow embedding of the project/task service layer of the
Distributed Task Management System (backend/src/services/task.service.js,
backend/src/services/project.service.js, backend/src/utils/errors.js,
backend/src/utils/jobs.js), together with theorems settling the frozen
claims about its specification.

Conventions of the embedding:
* Mongo ObjectIds are modelled as `Nat`.
* Dates are modelled as `Nat` timestamps; `new Date()` becomes an explicit
  `now` argument.
* Role and status strings are kept as `String`, mirroring the JavaScript
  string comparisons (`userRole === "ADMIN"`, the `validTransitions` table,
  member `role` fields).
* A thrown `AppError` becomes the `.error` branch of `Except AppError α`;
  since every service function throws before any persistence write, an
  `.error` result carries no new database state, which models "the stored
  document is unchanged".
* The request bodies reaching the service layer have passed through the zod
  schemas of task.validator.js, whose `schema.parse` strips unknown keys and
  whose controllers (task.controller.js) pass `req.validated.body`; hence
  the update patch contains only title / description / status / priority /
  assignedTo / dueDate, never `completedAt`.
* The side-channel calls a service function makes to the cache/notification
  helpers (`invalidateProjectCaches`, `addNotificationJob`) are collected in
  the `fx` field of a successful result. The service sources contain no such
  calls, so the embedding, read off line by line, produces `[]`.
-/

namespace DTMS

/-- Mirror of `AppError` from utils/errors.js: a message plus HTTP status. -/
structure AppError where
  message : String
  statusCode : Nat
deriving DecidableEq, Repr

/-- `errors.notFound` from utils/errors.js: 404. -/
def errors.notFound (resource : String) : AppError :=
  { message := resource ++ " not found", statusCode := 404 }

/-- `errors.forbidden` from utils/errors.js: 403. -/
def errors.forbidden (message : String) : AppError :=
  { message := message, statusCode := 403 }

/-- `errors.badRequest` from utils/errors.js: 400. -/
def errors.badRequest (message : String) : AppError :=
  { message := message, statusCode := 400 }

/-- `errors.conflict` from utils/errors.js: 409. -/
def errors.conflict (message : String) : AppError :=
  { message := message, statusCode := 409 }

/-- A project roster entry ({userId, role, addedAt} in Project.js). -/
structure Member where
  userId : Nat
  role : String
deriving DecidableEq, Repr

/-- A project document (models/Project.js), fields used by the services. -/
structure Project where
  id : Nat
  ownerId : Nat
  members : List Member
  status : String := "ACTIVE"
  createdAt : Nat := 0
deriving DecidableEq, Repr

/-- A task comment ({userId, text, createdAt} in Task.js). -/
structure TaskComment where
  userId : Nat
  text : String
  createdAt : Nat
deriving DecidableEq, Repr

/-- A task document (models/Task.js). `completedAt` defaults to null. -/
structure Task where
  id : Nat
  title : String := ""
  description : String := ""
  status : String := "TODO"
  priority : String := "MEDIUM"
  projectId : Nat
  assignedTo : Option Nat := none
  createdBy : Nat
  dueDate : Option Nat := none
  completedAt : Option Nat := none
  comments : List TaskComment := []
  createdAt : Nat := 0
deriving DecidableEq, Repr

/-- The document store: the User, Project and Task collections.
Users are represented by their ids (the services only look them up). -/
structure DB where
  users : List Nat
  projects : List Project
  tasks : List Task
deriving DecidableEq, Repr

/-- A side-channel call made by a service function: cache invalidation
(utils/redis.js `invalidateProjectCaches`) or notification enqueue
(utils/jobs.js `addNotificationJob`). -/
inductive SideEffect where
  | invalidateProjectCaches (projectId : Nat)
  | notificationJob (kind : String) (userId : Nat)
deriving DecidableEq, Repr

/-- The outcome of a successful write: the new store, the returned payload,
and the list of side-channel calls the service function made. -/
structure Out (α : Type) where
  db : DB
  val : α
  fx : List SideEffect
deriving DecidableEq, Repr

/-- The `validTransitions` table of task.service.js (lines 14-18), as the
JavaScript lookup `validTransitions[currentStatus]` with `undefined`
(an unknown status key) read as the empty list. -/
def validTransitions (s : String) : List String :=
  if s == "TODO" then ["IN_PROGRESS"]
  else if s == "IN_PROGRESS" then ["TODO", "DONE"]
  else if s == "DONE" then ["TODO", "IN_PROGRESS"]
  else []

/-- `validateStatusTransition` (task.service.js lines 23-29). -/
def validateStatusTransition (currentStatus newStatus : String) :
    Except AppError Unit :=
  if !((validTransitions currentStatus).contains newStatus) then
    .error (errors.badRequest
      ("Invalid status transition from " ++ currentStatus ++ " to " ++ newStatus))
  else .ok ()

/-- The record destructured from `checkTaskAccess`. -/
structure Access where
  task : Task
  project : Project
  isOwner : Bool
  isMember : Bool
  isAdmin : Bool
  isAssignee : Bool
deriving DecidableEq, Repr

/-- `checkTaskAccess` (task.service.js lines 34-56): resolve the task and
its project, compute the relationship flags, and reject outsiders. -/
def checkTaskAccess (st : DB) (taskId userId : Nat) (userRole : String) :
    Except AppError Access :=
  match st.tasks.find? (fun t => t.id == taskId) with
  | none => .error (errors.notFound "Task")
  | some task =>
    match st.projects.find? (fun p => p.id == task.projectId) with
    | none => .error (errors.notFound "Project")
    | some project =>
      let isOwner := project.ownerId == userId
      let isMember := project.members.any (fun m => m.userId == userId)
      let isAdmin := userRole == "ADMIN"
      let isAssignee := task.assignedTo == some userId
      if !isOwner && !isMember && !isAdmin && !isAssignee then
        .error (errors.forbidden "You don\x27t have access to this task")
      else .ok ⟨task, project, isOwner, isMember, isAdmin, isAssignee⟩

/-- The roster-role lookup `project.members.find(m => m.userId === userId)?.role`
appearing in several service functions. -/
def projectRoleOf (project : Project) (userId : Nat) : Option String :=
  (project.members.find? (fun m => m.userId == userId)).map Member.role

/-- Replace the task document with the given id (the `task.save()` of a
mutated task document). -/
def updateTaskInDb (st : DB) (tid : Nat) (t' : Task) : DB :=
  { st with tasks := st.tasks.map (fun t => if t.id == tid then t' else t) }

/-- `Math.ceil(total / limit)` on natural inputs, as computed in the
pagination objects of getProjectTasks and getUserProjects. -/
def mathCeil (total limit : Nat) : Nat :=
  if total % limit == 0 then total / limit else total / limit + 1

/-- The request body of task creation after the zod `createTaskSchema`:
title, description (default ""), priority (default "MEDIUM"), optional
assignedTo, optional dueDate. -/
structure CreateTaskData where
  title : String
  description : String := ""
  priority : String := "MEDIUM"
  assignedTo : Option Nat := none
  dueDate : Option Nat := none
deriving DecidableEq, Repr

/-- `createTask` (task.service.js lines 62-108). `newTaskId` and `now` stand
for the id and creation timestamp the store assigns to the new document;
the model's status is forced to "TODO" and `completedAt` takes the schema
default `null`, exactly as in the source. -/
def createTask (st : DB) (projectId userId : Nat) (userRole : String)
    (data : CreateTaskData) (newTaskId now : Nat) : Except AppError (Out Task) :=
  match st.projects.find? (fun p => p.id == projectId) with
  | none => .error (errors.notFound "Project")
  | some project =>
    let isOwner := project.ownerId == userId
    let memberRole := projectRoleOf project userId
    let isAdmin := userRole == "ADMIN"
    if !isOwner && !isAdmin && memberRole != some "OWNER"
        && memberRole != some "MANAGER" then
      .error (errors.forbidden "Only project OWNER/MANAGER can create tasks")
    else
      let assigneeCheck : Except AppError Unit :=
        match data.assignedTo with
        | some assignee =>
          if !(st.users.contains assignee) then
            .error (errors.notFound "Assigned user")
          else if !(project.members.any (fun m => m.userId == assignee)) then
            .error (errors.badRequest "Assigned user is not a project member")
          else .ok ()
        | none => .ok ()
      match assigneeCheck with
      | .error e => .error e
      | .ok _ =>
        let task : Task :=
          { id := newTaskId, title := data.title,
            description := data.description, status := "TODO",
            priority := data.priority, projectId := projectId,
            assignedTo := data.assignedTo, createdBy := userId,
            dueDate := data.dueDate, completedAt := none,
            comments := [], createdAt := now }
        .ok ⟨{ st with tasks := st.tasks ++ [task] }, task, []⟩

/-- The request body of a task update after the zod `updateTaskSchema`:
each field optional; for the nullable fields an outer `some none` models an
explicit JSON `null`. `completedAt` is not part of the schema, so it cannot
be supplied from outside. -/
structure UpdateTaskData where
  title : Option String := none
  description : Option String := none
  status : Option String := none
  priority : Option String := none
  assignedTo : Option (Option Nat) := none
  dueDate : Option (Option Nat) := none
deriving DecidableEq, Repr

/-- The `Object.assign(task, data)` of updateTask: overwrite exactly the
fields present in the (possibly completedAt-augmented) patch. -/
def applyPatch (t : Task) (data : UpdateTaskData)
    (completedPatch : Option (Option Nat)) : Task :=
  { t with
    title := data.title.getD t.title
    description := data.description.getD t.description
    status := data.status.getD t.status
    priority := data.priority.getD t.priority
    assignedTo := data.assignedTo.getD t.assignedTo
    dueDate := data.dueDate.getD t.dueDate
    completedAt := completedPatch.getD t.completedAt }

/-- The status-change block of `updateTask` (task.service.js lines 222-240):
entered only when the patch carries a status different from the current one;
its own permission check, then transition validation, then the completedAt
value written into the patch (`some _` = the block set `data.completedAt`,
`none` = the block was not entered and the patch has no completedAt). -/
def updateStatusStep (a : Access) (memberRole : Option String)
    (data : UpdateTaskData) (now : Nat) :
    Except AppError (Option (Option Nat)) :=
  match data.status with
  | some s =>
    if s != a.task.status then
      let canChangeStatus := a.isAdmin || a.isOwner || a.isAssignee
        || memberRole == some "OWNER" || memberRole == some "MANAGER"
      if !canChangeStatus then
        .error (errors.forbidden
          "Only the assigned user or project manager can change task status")
      else
        match validateStatusTransition a.task.status s with
        | .error e => .error e
        | .ok _ => .ok (some (if s == "DONE" then some now else none))
    else .ok none
  | none => .ok none

/-- The assignee-verification block of `updateTask` (task.service.js lines
243-255): entered only when the patch carries a non-null assignedTo
different from the current assignee. -/
def verifyAssigneeChange (st : DB) (a : Access) (data : UpdateTaskData) :
    Except AppError Unit :=
  match data.assignedTo with
  | some (some newAssignee) =>
    if some newAssignee != a.task.assignedTo then
      if !(st.users.contains newAssignee) then
        .error (errors.notFound "Assigned user")
      else if !(a.project.members.any (fun m => m.userId == newAssignee)) then
        .error (errors.badRequest "Assigned user is not a project member")
      else .ok ()
    else .ok ()
  | _ => .ok ()

/-- Body of `updateTask` (task.service.js lines 199-265) after the
`checkTaskAccess` call, keeping the source's order: permission check,
status-change block, assignee verification, then Object.assign + save. -/
def updateTaskCore (st : DB) (a : Access) (userId : Nat)
    (data : UpdateTaskData) (now : Nat) : Except AppError (Out Task) :=
  let memberRole := projectRoleOf a.project userId
  let canUpdate := a.isAdmin || a.isOwner || a.isAssignee
    || memberRole == some "OWNER" || memberRole == some "MANAGER"
  if !canUpdate then
    .error (errors.forbidden "You don\x27t have permission to update this task")
  else
    match updateStatusStep a memberRole data now with
    | .error e => .error e
    | .ok completedPatch =>
      match verifyAssigneeChange st a data with
      | .error e => .error e
      | .ok _ =>
        let task' := applyPatch a.task data completedPatch
        .ok ⟨updateTaskInDb st a.task.id task', task', []⟩

/-- `updateTask` (task.service.js lines 199-265). -/
def updateTask (st : DB) (taskId userId : Nat) (userRole : String)
    (data : UpdateTaskData) (now : Nat) : Except AppError (Out Task) :=
  match checkTaskAccess st taskId userId userRole with
  | .error e => .error e
  | .ok a => updateTaskCore st a userId data now

/-- `updateTaskStatus` (task.service.js lines 271-273): delegates to
updateTask with a status-only body. -/
def updateTaskStatus (st : DB) (taskId userId : Nat) (userRole : String)
    (status : String) (now : Nat) : Except AppError (Out Task) :=
  updateTask st taskId userId userRole { status := some status } now

/-- `assignTask` (task.service.js lines 279-319). -/
def assignTask (st : DB) (taskId userId : Nat) (userRole : String)
    (assignedTo : Nat) : Except AppError (Out Task) :=
  match checkTaskAccess st taskId userId userRole with
  | .error e => .error e
  | .ok a =>
    let memberRole := projectRoleOf a.project userId
    let canAssign := a.isAdmin || a.isOwner
      || memberRole == some "OWNER" || memberRole == some "MANAGER"
    if !canAssign then
      .error (errors.forbidden "You don\x27t have permission to assign tasks")
    else if !(st.users.contains assignedTo) then
      .error (errors.notFound "User")
    else if !(a.project.members.any (fun m => m.userId == assignedTo)) then
      .error (errors.badRequest "User is not a project member")
    else
      let task' := { a.task with assignedTo := some assignedTo }
      .ok ⟨updateTaskInDb st a.task.id task', task', []⟩

/-- `deleteTask` (task.service.js lines 325-349). -/
def deleteTask (st : DB) (taskId userId : Nat) (userRole : String) :
    Except AppError (Out Unit) :=
  match checkTaskAccess st taskId userId userRole with
  | .error e => .error e
  | .ok a =>
    let isCreator := a.task.createdBy == userId
    let memberRole := projectRoleOf a.project userId
    let canDelete := a.isAdmin || a.isOwner || isCreator
      || memberRole == some "OWNER"
    if !canDelete then
      .error (errors.forbidden "You don\x27t have permission to delete this task")
    else
      .ok ⟨{ st with tasks := st.tasks.filter (fun t => !(t.id == taskId)) },
        (), []⟩

/-- `addTaskComment` (task.service.js lines 354-374). -/
def addTaskComment (st : DB) (taskId userId : Nat) (userRole : String)
    (text : String) (now : Nat) : Except AppError (Out Task) :=
  match checkTaskAccess st taskId userId userRole with
  | .error e => .error e
  | .ok a =>
    let task' := { a.task with
      comments := a.task.comments ++ [⟨userId, text, now⟩] }
    .ok ⟨updateTaskInDb st a.task.id task', task', []⟩

/-- Insert into a sorted list, keeping elements for which `le` holds first. -/
def insertSorted {α : Type} (le : α → α → Bool) (x : α) : List α → List α
  | [] => [x]
  | y :: ys => if le x y then x :: y :: ys else y :: insertSorted le x ys

/-- The store's whole-collection sort (insertion sort on the comparator). -/
def sortList {α : Type} (le : α → α → Bool) : List α → List α
  | [] => []
  | x :: xs => insertSorted le x (sortList le xs)

/-- The sort-option computation of getProjectTasks (task.service.js lines
150-158): a field name and a direction (1 ascending, -1 descending); for
`sortBy === "priority"` the source comments out a semantic priority order
and instead sorts by createdAt. -/
def buildSortOptions (sortBy order : String) : String × Int :=
  if sortBy == "priority" then ("createdAt", if order == "asc" then 1 else -1)
  else (sortBy, if order == "asc" then 1 else -1)

/-- The sortable field value of a task document (dates as Nat; a null
dueDate reads as 0, matching Mongo's null-first ascending order). -/
def taskFieldVal (field : String) (t : Task) : Nat :=
  if field == "createdAt" then t.createdAt
  else if field == "dueDate" then t.dueDate.getD 0
  else 0

/-- Apply a `(field, direction)` sort option to a task list. -/
def sortTasks (opts : String × Int) (l : List Task) : List Task :=
  if opts.2 == 1 then
    sortList (fun a b => Nat.ble (taskFieldVal opts.1 a) (taskFieldVal opts.1 b)) l
  else
    sortList (fun a b => Nat.ble (taskFieldVal opts.1 b) (taskFieldVal opts.1 a)) l

/-- The query string of the task list endpoint after `taskListQuerySchema`. -/
structure TaskListQuery where
  status : Option String := none
  priority : Option String := none
  assignedTo : Option Nat := none
  page : Nat := 1
  limit : Nat := 10
  sortBy : String := "createdAt"
  order : String := "desc"
deriving DecidableEq, Repr

/-- The `pagination` object returned by the list endpoints. -/
structure Pagination where
  page : Nat
  limit : Nat
  total : Nat
  pages : Nat
deriving DecidableEq, Repr

/-- Result shape of getProjectTasks: `{ data, pagination }`. -/
structure TaskListResult where
  data : List Task
  pagination : Pagination
deriving DecidableEq, Repr

/-- `getProjectTasks` (task.service.js lines 113-177): access check, filter,
count, sort, skip/limit, and the pagination object with
`pages = Math.ceil(total / limit)`. -/
def getProjectTasks (st : DB) (projectId userId : Nat) (userRole : String)
    (q : TaskListQuery) : Except AppError TaskListResult :=
  match st.projects.find? (fun p => p.id == projectId) with
  | none => .error (errors.notFound "Project")
  | some project =>
    let isOwner := project.ownerId == userId
    let isMember := project.members.any (fun m => m.userId == userId)
    let isAdmin := userRole == "ADMIN"
    if !isOwner && !isMember && !isAdmin then
      .error (errors.forbidden "You don\x27t have access to this project")
    else
      let skip := (q.page - 1) * q.limit
      let matching := st.tasks.filter (fun t =>
        t.projectId == projectId
        && (match q.status with | some s => t.status == s | none => true)
        && (match q.priority with | some p => t.priority == p | none => true)
        && (match q.assignedTo with
            | some u => t.assignedTo == some u | none => true))
      let sortOptions := buildSortOptions q.sortBy q.order
      let total := matching.length
      let tasks := ((sortTasks sortOptions matching).drop skip).take q.limit
      .ok { data := tasks,
            pagination := { page := q.page, limit := q.limit, total := total,
                            pages := mathCeil total q.limit } }

/-- Result shape of getUserProjects: `{ data, pagination }`. -/
structure ProjectListResult where
  data : List Project
  pagination : Pagination
deriving DecidableEq, Repr

/-- `getUserProjects` (project.service.js lines 59-99): ADMIN sees all
projects with the status filter, others only those they own or belong to;
sorted by createdAt descending, then skip/limit and the pagination object. -/
def getUserProjects (st : DB) (userId : Nat) (userRole : String)
    (page limit : Nat) (status : String) : ProjectListResult :=
  let skip := (page - 1) * limit
  let matching := st.projects.filter (fun p =>
    if userRole == "ADMIN" then p.status == status
    else (p.ownerId == userId || p.members.any (fun m => m.userId == userId))
      && p.status == status)
  let total := matching.length
  let projects :=
    ((sortList (fun a b => Nat.ble b.createdAt a.createdAt) matching).drop
      skip).take limit
  { data := projects,
    pagination := { page := page, limit := limit, total := total,
                    pages := mathCeil total limit } }

/-- `removeProjectMember` (project.service.js lines 228-264). -/
def removeProjectMember (st : DB) (projectId userId : Nat) (userRole : String)
    (memberId : Nat) : Except AppError (Out Project) :=
  match st.projects.find? (fun p => p.id == projectId) with
  | none => .error (errors.notFound "Project")
  | some project =>
    let isOwner := project.ownerId == userId
    let memberRole := projectRoleOf project userId
    let canManage := userRole == "ADMIN" || isOwner || memberRole == some "MANAGER"
    if !canManage then
      .error (errors.forbidden "You don\x27t have permission to manage project members")
    else if project.ownerId == memberId then
      .error (errors.badRequest "Cannot remove project owner")
    else
      let project' := { project with
        members := project.members.filter (fun m => !(m.userId == memberId)) }
      let projects' :=
        st.projects.map (fun p => if p.id == projectId then project' else p)
      .ok ⟨{ st with projects := projects' }, project', []⟩

/-- The in-place `member.role = role` of updateProjectMember: JavaScript's
`find` returns the first matching entry, so only that entry is mutated. -/
def setRoleOfFirst (members : List Member) (memberId : Nat) (role : String) :
    List Member :=
  match members with
  | [] => []
  | m :: ms =>
    if m.userId == memberId then { m with role := role } :: ms
    else m :: setRoleOfFirst ms memberId role

/-- `updateProjectMember` (project.service.js lines 269-309). -/
def updateProjectMember (st : DB) (projectId userId : Nat) (userRole : String)
    (memberId : Nat) (role : String) : Except AppError (Out Project) :=
  match st.projects.find? (fun p => p.id == projectId) with
  | none => .error (errors.notFound "Project")
  | some project =>
    let isOwner := project.ownerId == userId
    let memberRole := projectRoleOf project userId
    let canManage := userRole == "ADMIN" || isOwner || memberRole == some "MANAGER"
    if !canManage then
      .error (errors.forbidden "You don\x27t have permission to manage project members")
    else
      match project.members.find? (fun m => m.userId == memberId) with
      | none => .error (errors.notFound "Project member")
      | some _ =>
        if project.ownerId == memberId then
          .error (errors.badRequest "Cannot change owner role")
        else
          let project' := { project with
            members := setRoleOfFirst project.members memberId role }
          let projects' :=
            st.projects.map (fun p => if p.id == projectId then project' else p)
          .ok ⟨{ st with projects := projects' }, project', []⟩

/-- `addNotificationJob` (utils/jobs.js lines 142-157): when the queue is
not initialized it only logs; when the enqueue itself throws, the error is
caught and logged. In no case does the caller see a failure. -/
def addNotificationJob (queueInitialized enqueueFails : Bool) :
    Except AppError Unit :=
  if !queueInitialized then .ok ()
  else if enqueueFails then .ok ()
  else .ok ()

/-- `invalidateProjectCaches` (utils/redis.js lines 137-150): deletion
errors are caught and logged, never rethrown. -/
def invalidateProjectCaches (deleteFails : Bool) : Except AppError Unit :=
  if deleteFails then .ok () else .ok ()

/-- The completedAt/status consistency property of a task document:
completedAt is present exactly when the status is "DONE". -/
def completedIffDone (t : Task) : Bool :=
  t.completedAt.isSome == (t.status == "DONE")

/-- Every task in the store satisfies `completedIffDone`. -/
def tasksConsistent (st : DB) : Bool :=
  st.tasks.all completedIffDone

/-! ### Concrete fixtures

A small store used by the witnesses and counterexamples: project 1 is owned
by user 10, user 20 is a plain MEMBER, user 30 a MANAGER member, user 40
exists but is not a member; task 5 lives in project 1, was created by the
owner and is assigned to user 20. -/

def sampleProject : Project :=
  { id := 1, ownerId := 10,
    members := [⟨10, "OWNER"⟩, ⟨20, "MEMBER"⟩, ⟨30, "MANAGER"⟩],
    status := "ACTIVE", createdAt := 0 }

def sampleTask : Task :=
  { id := 5, title := "Sample", description := "", status := "TODO",
    priority := "MEDIUM", projectId := 1, assignedTo := some 20,
    createdBy := 10, dueDate := none, completedAt := none,
    comments := [], createdAt := 0 }

def sampleDb : DB :=
  { users := [10, 20, 30, 40], projects := [sampleProject],
    tasks := [sampleTask] }

/-- The sample task mid-workflow. -/
def inProgressTask : Task := { sampleTask with status := "IN_PROGRESS" }

def inProgressDb : DB := { sampleDb with tasks := [inProgressTask] }

/-- A task whose creator (user 40) is no longer a project member and is not
the assignee. -/
def removedCreatorTask : Task :=
  { sampleTask with assignedTo := none, createdBy := 40 }

def removedCreatorDb : DB := { sampleDb with tasks := [removedCreatorTask] }

/-! ### Shared lemmas -/

theorem checkTaskAccess_ok_spec (st : DB) (taskId userId : Nat)
    (userRole : String) (a : Access)
    (h : checkTaskAccess st taskId userId userRole = .ok a) :
    a.task ∈ st.tasks ∧ a.task.id = taskId
    ∧ a.isOwner = (a.project.ownerId == userId)
    ∧ a.isMember = (a.project.members.any (fun m => m.userId == userId))
    ∧ a.isAdmin = (userRole == "ADMIN")
    ∧ a.isAssignee = (a.task.assignedTo == some userId) := by
  unfold checkTaskAccess at h
  split at h
  · cases h
  · rename_i task hf
    split at h
    · cases h
    · rename_i project hp
      simp only at h
      split at h
      · cases h
      · cases h
        refine ⟨List.mem_of_find?_eq_some hf, ?_, rfl, rfl, rfl, rfl⟩
        have := List.find?_some hf
        simpa using this

theorem checkTaskAccess_error_shape (st : DB) (taskId userId : Nat)
    (userRole : String) (e : AppError)
    (h : checkTaskAccess st taskId userId userRole = .error e) :
    e = errors.notFound "Task" ∨ e = errors.notFound "Project"
    ∨ e = errors.forbidden "You don\x27t have access to this task" := by
  unfold checkTaskAccess at h
  split at h
  · cases h; exact Or.inl rfl
  · split at h
    · cases h; exact Or.inr (Or.inl rfl)
    · simp only at h
      split at h
      · cases h; exact Or.inr (Or.inr rfl)
      · cases h

theorem updateStatusStep_error_cases (a : Access) (memberRole : Option String)
    (data : UpdateTaskData) (now : Nat) (e : AppError)
    (h : updateStatusStep a memberRole data now = .error e) :
    ((a.isAdmin || a.isOwner || a.isAssignee || memberRole == some "OWNER"
        || memberRole == some "MANAGER") = false
      ∧ e = errors.forbidden
          "Only the assigned user or project manager can change task status")
    ∨ e.statusCode = 400 := by
  unfold updateStatusStep at h
  split at h
  · split at h
    · simp only at h
      split at h
      · rename_i hc
        simp only [Bool.not_eq_true'] at hc
        injection h with h'
        exact Or.inl ⟨hc, h'.symm⟩
      · split at h
        · rename_i e' hvt
          injection h with h'
          subst h'
          unfold validateStatusTransition at hvt
          split at hvt
          · injection hvt with h2
            rw [← h2]
            exact Or.inr rfl
          · cases hvt
        · cases h
    · cases h
  · cases h

theorem updateStatusStep_ok_spec (a : Access) (memberRole : Option String)
    (data : UpdateTaskData) (now : Nat) (cp : Option (Option Nat))
    (h : updateStatusStep a memberRole data now = .ok cp) :
    (cp = none ∧ data.status.getD a.task.status = a.task.status)
    ∨ (∃ s, data.status = some s
        ∧ cp = some (if s == "DONE" then some now else none)) := by
  unfold updateStatusStep at h
  split at h
  · rename_i s hs
    split at h
    · simp only at h
      split at h
      · cases h
      · split at h
        · cases h
        · injection h with h'
          exact Or.inr ⟨s, hs, h'.symm⟩
    · rename_i hsame
      injection h with h'
      subst h'
      simp only [Bool.not_eq_true] at hsame
      simp only [bne_eq_false_iff_eq] at hsame
      exact Or.inl ⟨rfl, by rw [hs]; simp [hsame]⟩
  · rename_i hnone
    injection h with h'
    subst h'
    exact Or.inl ⟨rfl, by rw [hnone]; rfl⟩

theorem verifyAssigneeChange_error_statusCode (st : DB) (a : Access)
    (data : UpdateTaskData) (e : AppError)
    (h : verifyAssigneeChange st a data = .error e) :
    e.statusCode = 404 ∨ e.statusCode = 400 := by
  unfold verifyAssigneeChange at h
  split at h
  · split at h
    · split at h
      · injection h with h'
        rw [← h']
        exact Or.inl rfl
      · split at h
        · injection h with h'
          rw [← h']
          exact Or.inr rfl
        · cases h
    · cases h
  · cases h

theorem updateTaskCore_ok_shape (st : DB) (a : Access) (userId : Nat)
    (data : UpdateTaskData) (now : Nat) (out : Out Task)
    (h : updateTaskCore st a userId data now = .ok out) :
    ∃ cp, updateStatusStep a (projectRoleOf a.project userId) data now = .ok cp
      ∧ out = ⟨updateTaskInDb st a.task.id (applyPatch a.task data cp),
               applyPatch a.task data cp, []⟩ := by
  unfold updateTaskCore at h
  simp only at h
  split at h
  · cases h
  · split at h
    · cases h
    · rename_i cp hcp
      split at h
      · cases h
      · injection h with h'
        exact ⟨cp, hcp, h'.symm⟩

theorem updateStatusStep_invalid (a : Access) (memberRole : Option String)
    (data : UpdateTaskData) (now : Nat) (s : String)
    (hs : data.status = some s) (hne : s ≠ a.task.status)
    (hcs : (a.isAdmin || a.isOwner || a.isAssignee || memberRole == some "OWNER"
      || memberRole == some "MANAGER") = true)
    (hnotin : (validTransitions a.task.status).contains s = false) :
    updateStatusStep a memberRole data now
      = .error (errors.badRequest
          ("Invalid status transition from " ++ a.task.status ++ " to " ++ s)) := by
  unfold updateStatusStep
  rw [hs]
  simp only [bne_iff_ne, ne_eq, hne, not_false_eq_true, if_true, hcs,
    Bool.not_true, Bool.false_eq_true, if_false]
  unfold validateStatusTransition
  rw [hnotin]
  rfl

theorem updateStatusStep_same (a : Access) (memberRole : Option String)
    (data : UpdateTaskData) (now : Nat) (s : String)
    (hs : data.status = some s) (heq : s = a.task.status) :
    updateStatusStep a memberRole data now = .ok none := by
  unfold updateStatusStep
  rw [hs]
  simp [heq]

theorem updateStatusStep_absent (a : Access) (memberRole : Option String)
    (data : UpdateTaskData) (now : Nat) (hs : data.status = none) :
    updateStatusStep a memberRole data now = .ok none := by
  unfold updateStatusStep
  rw [hs]

theorem updateStatusStep_valid (a : Access) (memberRole : Option String)
    (data : UpdateTaskData) (now : Nat) (s : String)
    (hs : data.status = some s) (hne : s ≠ a.task.status)
    (hcs : (a.isAdmin || a.isOwner || a.isAssignee || memberRole == some "OWNER"
      || memberRole == some "MANAGER") = true)
    (hin : (validTransitions a.task.status).contains s = true) :
    updateStatusStep a memberRole data now
      = .ok (some (if s == "DONE" then some now else none)) := by
  unfold updateStatusStep
  rw [hs]
  simp only [bne_iff_ne, ne_eq, hne, not_false_eq_true, if_true, hcs,
    Bool.not_true, Bool.false_eq_true, if_false]
  unfold validateStatusTransition
  rw [hin]
  rfl

theorem verifyAssigneeChange_absent (st : DB) (a : Access)
    (data : UpdateTaskData) (h : data.assignedTo = none) :
    verifyAssigneeChange st a data = .ok () := by
  unfold verifyAssigneeChange
  rw [h]

theorem verifyAssigneeChange_member (st : DB) (a : Access)
    (data : UpdateTaskData) (u : Nat)
    (h : data.assignedTo = some (some u))
    (hu : st.users.contains u = true)
    (hm : a.project.members.any (fun m => m.userId == u) = true) :
    verifyAssigneeChange st a data = .ok () := by
  unfold verifyAssigneeChange
  rw [h]
  simp only [hu, hm, Bool.not_true, Bool.false_eq_true, if_false]
  split <;> rfl

theorem updateTaskCore_error_of_statusStep (st : DB) (a : Access)
    (userId : Nat) (data : UpdateTaskData) (now : Nat) (e : AppError)
    (hcan : (a.isAdmin || a.isOwner || a.isAssignee
      || projectRoleOf a.project userId == some "OWNER"
      || projectRoleOf a.project userId == some "MANAGER") = true)
    (hss : updateStatusStep a (projectRoleOf a.project userId) data now
      = .error e) :
    updateTaskCore st a userId data now = .error e := by
  unfold updateTaskCore
  simp only [hcan, Bool.not_true, Bool.false_eq_true, if_false, hss]

theorem updateTaskCore_ok_of_steps (st : DB) (a : Access) (userId : Nat)
    (data : UpdateTaskData) (now : Nat) (cp : Option (Option Nat))
    (hcan : (a.isAdmin || a.isOwner || a.isAssignee
      || projectRoleOf a.project userId == some "OWNER"
      || projectRoleOf a.project userId == some "MANAGER") = true)
    (hss : updateStatusStep a (projectRoleOf a.project userId) data now = .ok cp)
    (hva : verifyAssigneeChange st a data = .ok ()) :
    updateTaskCore st a userId data now
      = .ok ⟨updateTaskInDb st a.task.id (applyPatch a.task data cp),
             applyPatch a.task data cp, []⟩ := by
  unfold updateTaskCore
  simp only [hcan, Bool.not_true, Bool.false_eq_true, if_false, hss, hva]

theorem updateTask_eq_core (st : DB) (taskId userId : Nat) (userRole : String)
    (data : UpdateTaskData) (now : Nat) (a : Access)
    (hacc : checkTaskAccess st taskId userId userRole = .ok a) :
    updateTask st taskId userId userRole data now
      = updateTaskCore st a userId data now := by
  unfold updateTask
  rw [hacc]

theorem mathCeil_eq (t l : Nat) (h : 1 ≤ l) :
    mathCeil t l = (t + l - 1) / l := by
  have hq := Nat.div_add_mod t l
  have hrlt : t % l < l := Nat.mod_lt t h
  by_cases h0 : t % l = 0
  · have ht : t + l - 1 = l * (t / l) + (l - 1) := by omega
    have h2 : (t + l - 1) / l = t / l + (l - 1) / l := by
      rw [ht, Nat.mul_add_div h]
    have h3 : (l - 1) / l = 0 := Nat.div_eq_of_lt (by omega)
    unfold mathCeil
    rw [if_pos (by simp [h0] : ((t % l == 0) = true))]
    omega
  · have ht : t + l - 1 = l * (t / l + 1) + (t % l - 1) := by
      rw [Nat.mul_add, Nat.mul_one]
      omega
    have h2 : (t + l - 1) / l = (t / l + 1) + (t % l - 1) / l := by
      rw [ht, Nat.mul_add_div h]
    have h3 : (t % l - 1) / l = 0 := Nat.div_eq_of_lt (by omega)
    unfold mathCeil
    rw [if_neg (by simp [h0] : ¬((t % l == 0) = true))]
    omega

theorem tasksConsistent_iff (st : DB) :
    tasksConsistent st = true ↔ ∀ t ∈ st.tasks, completedIffDone t = true := by
  simp [tasksConsistent, List.all_eq_true]

theorem tasksConsistent_updateTaskInDb (st : DB) (tid : Nat) (t' : Task)
    (hst : tasksConsistent st = true) (ht' : completedIffDone t' = true) :
    tasksConsistent (updateTaskInDb st tid t') = true := by
  rw [tasksConsistent_iff]
  intro t ht
  simp only [updateTaskInDb, List.mem_map] at ht
  obtain ⟨t0, ht0, rfl⟩ := ht
  split
  · exact ht'
  · exact (tasksConsistent_iff st).mp hst t0 ht0

theorem createTask_ok_shape (st : DB) (projectId userId : Nat)
    (userRole : String) (data : CreateTaskData) (newTaskId now : Nat)
    (out : Out Task)
    (h : createTask st projectId userId userRole data newTaskId now
      = .ok out) :
    out.db = { st with tasks := st.tasks ++ [out.val] }
    ∧ out.val.status = "TODO" ∧ out.val.completedAt = none := by
  unfold createTask at h
  split at h
  · cases h
  · simp only at h
    split at h
    · cases h
    · split at h
      · cases h
      · injection h with h'
        subst h'
        exact ⟨rfl, rfl, rfl⟩

/-! ### Claim theorems -/

/-- C8: for every task-list query, sorting by "priority" returns exactly the
same result as sorting by "createdAt" under the same order direction: the
priority branch of the sort-option computation in getProjectTasks writes a
createdAt sort instead of a HIGH > MEDIUM > LOW order. -/
theorem getProjectTasks_priority_sorts_by_createdAt (st : DB)
    (projectId userId : Nat) (userRole : String) (q : TaskListQuery) :
    getProjectTasks st projectId userId userRole { q with sortBy := "priority" }
      = getProjectTasks st projectId userId userRole
          { q with sortBy := "createdAt" } := rfl

/-- C9: in updateTask the status-change permission predicate is the same
boolean expression as the general edit predicate, so every requester who
passes the edit check also passes the status-change check, and the Forbidden
error "Only the assigned user or project manager can change task status" is
unreachable for every input. -/
theorem updateTask_status_forbidden_unreachable (st : DB) (taskId userId : Nat)
    (userRole : String) (data : UpdateTaskData) (now : Nat) (e : AppError)
    (herr : updateTask st taskId userId userRole data now = .error e) :
    e ≠ errors.forbidden
        "Only the assigned user or project manager can change task status" := by
  intro hmsg
  subst hmsg
  have h := herr
  unfold updateTask at h
  cases hacc : checkTaskAccess st taskId userId userRole with
  | error e =>
    rw [hacc] at h
    injection h with h'
    subst h'
    rcases checkTaskAccess_error_shape _ _ _ _ _ hacc with h1 | h1 | h1 <;>
      exact absurd h1 (by decide)
  | ok a =>
    rw [hacc] at h
    unfold updateTaskCore at h
    simp only at h
    split at h
    · injection h with h'
      exact absurd h' (by decide)
    · rename_i hcan
      simp only [Bool.not_eq_true'] at hcan
      rw [Bool.not_eq_false] at hcan
      split at h
      · rename_i e heq
        injection h with h'
        subst h'
        rcases updateStatusStep_error_cases _ _ _ _ _ heq with ⟨hfalse, _⟩ | hcode
        · rw [hcan] at hfalse
          cases hfalse
        · exact absurd hcode (by decide)
      · split at h
        · rename_i e heq
          injection h with h'
          subst h'
          rcases verifyAssigneeChange_error_statusCode _ _ _ _ heq with hc | hc <;>
            exact absurd hc (by decide)
        · cases h

/-- C9 witness: at a concrete erroring input (user 40 has no relationship to
task 5) the error returned is the access error, not the status-change
Forbidden error. -/
theorem updateTask_status_forbidden_unreachable_witness :
    updateTask sampleDb 5 40 "USER" {} 99
      = .error (errors.forbidden "You don\x27t have access to this task")
    ∧ errors.forbidden "You don\x27t have access to this task"
      ≠ errors.forbidden
          "Only the assigned user or project manager can change task status" :=
  ⟨rfl, updateTask_status_forbidden_unreachable sampleDb 5 40 "USER" {} 99
    (errors.forbidden "You don\x27t have access to this task") rfl⟩

/-- C1 counterexample: task 5 has status TODO, yet an update carrying the
same-state pair (TODO, TODO) does not fail BadRequest — it succeeds, and
returns the task unchanged, because updateTask only validates transitions
when the patch status differs from the current one. -/
theorem updateTask_selfTransition_accepted :
    (sampleDb.tasks.find? (fun t => t.id == 5)).map Task.status = some "TODO"
    ∧ updateTask sampleDb 5 20 "USER" { status := some "TODO" } 99
        = .ok ⟨sampleDb, sampleTask, []⟩ := ⟨rfl, rfl⟩

/-- C1 (amended): for a requester that passes the edit/status permission
checks, a patch whose status differs from the current one succeeds only via
the transition table: any unlisted (current, new) pair fails with exactly
the BadRequest invalid-transition error before anything is written (an
`.error` result carries no store write, so status, completedAt and all
other fields stay unchanged). A same-state pair, however, is not treated as
a transition: the update is accepted without consulting the table and
leaves status and completedAt unchanged. -/
theorem updateTask_transition_table (st : DB) (taskId userId : Nat)
    (userRole : String) (data : UpdateTaskData) (now : Nat) (a : Access)
    (s : String)
    (hacc : checkTaskAccess st taskId userId userRole = .ok a)
    (hs : data.status = some s)
    (hcan : (a.isAdmin || a.isOwner || a.isAssignee
      || projectRoleOf a.project userId == some "OWNER"
      || projectRoleOf a.project userId == some "MANAGER") = true) :
    (s ≠ a.task.status → (validTransitions a.task.status).contains s = false →
      updateTask st taskId userId userRole data now
        = .error (errors.badRequest
            ("Invalid status transition from " ++ a.task.status ++ " to " ++ s)))
    ∧ (s = a.task.status → data.assignedTo = none →
      updateTask st taskId userId userRole data now
        = .ok ⟨updateTaskInDb st a.task.id (applyPatch a.task data none),
               applyPatch a.task data none, []⟩) := by
  constructor
  · intro hne hnotin
    rw [updateTask_eq_core st taskId userId userRole data now a hacc]
    exact updateTaskCore_error_of_statusStep st a userId data now _ hcan
      (updateStatusStep_invalid a _ data now s hs hne hcan hnotin)
  · intro heq hna
    rw [updateTask_eq_core st taskId userId userRole data now a hacc]
    exact updateTaskCore_ok_of_steps st a userId data now none hcan
      (updateStatusStep_same a _ data now s hs heq)
      (verifyAssigneeChange_absent st a data hna)

/-- C1 witness: the amended theorem applied at the concrete store: the
assignee requests TODO → DONE, an unlisted pair, and receives exactly the
invalid-transition BadRequest. -/
theorem updateTask_transition_table_witness :
    updateTask sampleDb 5 20 "USER" { status := some "DONE" } 99
      = .error (errors.badRequest "Invalid status transition from TODO to DONE") :=
  (updateTask_transition_table sampleDb 5 20 "USER" { status := some "DONE" }
    99 ⟨sampleTask, sampleProject, false, true, false, true⟩ "DONE"
    rfl rfl (by decide)).1 (by decide) (by decide)

/-- C2 counterexample: with memberId equal to the owner's id, a caller with
no management relationship to the project fails with the Forbidden
authorization error (403), not the BadRequest business-rule error (400) the
claim asserts for every caller. -/
theorem removeOwner_outsider_gets_forbidden :
    sampleProject.ownerId = 10
    ∧ removeProjectMember sampleDb 1 40 "USER" 10
        = .error (errors.forbidden
            "You don\x27t have permission to manage project members")
    ∧ (errors.forbidden
        "You don\x27t have permission to manage project members").statusCode
        = 403 := ⟨rfl, rfl, rfl⟩

/-- C2 (amended): with memberId equal to the project owner's id,
RemoveMember and UpdateMemberRole never succeed, for any caller, so the
roster is never changed through these paths; the failure is the BadRequest
business-rule error whenever the caller passes the manage-members
authorization (ADMIN, owner, or MANAGER member — in particular any global
ADMIN); a caller failing that authorization gets Forbidden instead (and
UpdateMemberRole reports NotFound if the owner has no roster entry). -/
theorem owner_roster_entry_immutable (st : DB) (projectId userId : Nat)
    (userRole : String) (memberId : Nat) (newRole : String) (p : Project)
    (hp : st.projects.find? (fun x => x.id == projectId) = some p)
    (hown : p.ownerId = memberId) :
    (removeProjectMember st projectId userId userRole memberId).isOk = false
    ∧ (updateProjectMember st projectId userId userRole memberId newRole).isOk
        = false
    ∧ ((userRole == "ADMIN" || p.ownerId == userId
          || projectRoleOf p userId == some "MANAGER") = true →
        removeProjectMember st projectId userId userRole memberId
          = .error (errors.badRequest "Cannot remove project owner")
        ∧ (p.members.find? (fun m => m.userId == memberId) ≠ none →
          updateProjectMember st projectId userId userRole memberId newRole
            = .error (errors.badRequest "Cannot change owner role"))) := by
  have hbeq : (p.ownerId == memberId) = true := by simp [hown]
  refine ⟨?_, ?_, ?_⟩
  · unfold removeProjectMember
    rw [hp]
    simp only
    split
    · rfl
    · rfl
  · unfold updateProjectMember
    rw [hp]
    simp only
    split
    · rfl
    · split
      · rfl
      · rfl
  · intro hcm
    constructor
    · unfold removeProjectMember
      rw [hp]
      simp only [hcm, Bool.not_true, Bool.false_eq_true, if_false, hbeq,
        if_true]
    · intro hfind
      unfold updateProjectMember
      rw [hp]
      simp only [hcm, Bool.not_true, Bool.false_eq_true, if_false]
      split
      · rename_i hf
        exact absurd hf hfind
      · simp [hbeq]

/-- C2 witness: the amended theorem at the concrete store: an ADMIN caller
targeting the owner receives exactly the two BadRequest business-rule
errors. -/
theorem owner_roster_entry_immutable_witness :
    removeProjectMember sampleDb 1 99 "ADMIN" 10
      = .error (errors.badRequest "Cannot remove project owner")
    ∧ updateProjectMember sampleDb 1 99 "ADMIN" 10 "MEMBER"
      = .error (errors.badRequest "Cannot change owner role") :=
  ⟨((owner_roster_entry_immutable sampleDb 1 99 "ADMIN" 10 "MEMBER"
      sampleProject rfl rfl).2.2 (by decide)).1,
   ((owner_roster_entry_immutable sampleDb 1 99 "ADMIN" 10 "MEMBER"
      sampleProject rfl rfl).2.2 (by decide)).2 (by decide)⟩

/-- C4 counterexample: creating a task whose assignedTo names a user id that
does not exist fails with the NotFound error (HTTP 404), not a BadRequest
(400) as the claim states. -/
theorem createTask_missing_assignee_notFound :
    sampleDb.users.contains 99 = false
    ∧ createTask sampleDb 1 10 "MANAGER"
        { title := "New task", assignedTo := some 99 } 7 50
        = .error (errors.notFound "Assigned user")
    ∧ (errors.notFound "Assigned user").statusCode = 404 := ⟨rfl, rfl, rfl⟩

/-- C4 (amended): for a creation request whose assignedTo is set, made by a
requester passing the create permission, a nonexistent target user fails
with NotFound, and an existing user who is not a project member fails with
BadRequest; in both cases the service throws before `Task.create`, so no
task is persisted. -/
theorem createTask_assignee_check (st : DB) (projectId userId : Nat)
    (userRole : String) (data : CreateTaskData) (newTaskId now : Nat)
    (u : Nat) (p : Project)
    (hp : st.projects.find? (fun x => x.id == projectId) = some p)
    (hperm : (p.ownerId == userId || userRole == "ADMIN"
      || projectRoleOf p userId == some "OWNER"
      || projectRoleOf p userId == some "MANAGER") = true)
    (ha : data.assignedTo = some u) :
    (st.users.contains u = false →
      createTask st projectId userId userRole data newTaskId now
        = .error (errors.notFound "Assigned user"))
    ∧ (st.users.contains u = true →
      p.members.any (fun m => m.userId == u) = false →
      createTask st projectId userId userRole data newTaskId now
        = .error (errors.badRequest "Assigned user is not a project member")) := by
  have hcond : (!(p.ownerId == userId) && !(userRole == "ADMIN")
      && projectRoleOf p userId != some "OWNER"
      && projectRoleOf p userId != some "MANAGER") = false := by
    simp only [bne]
    rw [← Bool.not_or, ← Bool.not_or, ← Bool.not_or, hperm]
    rfl
  constructor
  · intro hu
    unfold createTask
    rw [hp]
    simp only [hcond, Bool.false_eq_true, if_false, ha, hu, Bool.not_false,
      if_true]
  · intro hu hm
    unfold createTask
    rw [hp]
    simp only [hcond, Bool.false_eq_true, if_false, ha, hu, hm,
      Bool.not_true, Bool.not_false, if_true]

/-- C4 witness: the amended theorem at the concrete store: owner 10 creates
with a nonexistent assignee (404) and with an existing non-member assignee
(400). -/
theorem createTask_assignee_check_witness :
    createTask sampleDb 1 10 "USER" { title := "A", assignedTo := some 99 } 7 50
      = .error (errors.notFound "Assigned user")
    ∧ createTask sampleDb 1 10 "USER" { title := "A", assignedTo := some 40 }
        7 50
      = .error (errors.badRequest "Assigned user is not a project member") :=
  ⟨(createTask_assignee_check sampleDb 1 10 "USER"
      { title := "A", assignedTo := some 99 } 7 50 99 sampleProject rfl
      (by decide) rfl).1 (by decide),
   (createTask_assignee_check sampleDb 1 10 "USER"
      { title := "A", assignedTo := some 40 } 7 50 40 sampleProject rfl
      (by decide) rfl).2 (by decide) (by decide)⟩

/-- C5 counterexample: user 40 is the task\x27s creator, yet Delete fails for
them: having been removed from the project (no membership, not assignee,
not owner, not ADMIN) they do not even reach the delete-permission check,
so "succeeds exactly for ... the task\x27s creator" is false as stated. -/
theorem deleteTask_nonmember_creator_forbidden :
    (removedCreatorDb.tasks.find? (fun t => t.id == 5)).map Task.createdBy
      = some 40
    ∧ deleteTask removedCreatorDb 5 40 "USER"
        = .error (errors.forbidden "You don\x27t have access to this task") :=
  ⟨rfl, rfl⟩

/-- C5 (amended): for a requester that passes the task access gate (owner,
member, ADMIN, or assignee), Delete succeeds exactly for a global ADMIN,
the project owner, the task\x27s creator, or a member with project role
OWNER; in particular a MANAGER member who is not the creator (and not
owner/ADMIN) is rejected with Forbidden even though the same requester\x27s
generic update succeeds. -/
theorem deleteTask_permission_characterization (st : DB) (taskId userId : Nat)
    (userRole : String) (now : Nat) (a : Access)
    (hacc : checkTaskAccess st taskId userId userRole = .ok a) :
    ((deleteTask st taskId userId userRole).isOk = true
      ↔ (a.isAdmin || a.isOwner || a.task.createdBy == userId
          || projectRoleOf a.project userId == some "OWNER") = true)
    ∧ (a.isAdmin = false → a.isOwner = false
        → (a.task.createdBy == userId) = false
        → projectRoleOf a.project userId = some "MANAGER"
        → deleteTask st taskId userId userRole
            = .error (errors.forbidden
                "You don\x27t have permission to delete this task")
          ∧ (updateTask st taskId userId userRole {} now).isOk = true) := by
  constructor
  · unfold deleteTask
    rw [hacc]
    simp only
    split
    · rename_i h
      simp only [Bool.not_eq_true'] at h
      simp [Except.isOk, Except.toBool, h]
    · rename_i h
      simp only [Bool.not_eq_true', Bool.not_eq_false] at h
      simp [Except.isOk, Except.toBool, h]
  · intro h1 h2 h3 hrole
    constructor
    · unfold deleteTask
      rw [hacc]
      simp only [h1, h2, h3, hrole, Bool.or_false, Bool.false_or,
        Bool.not_false, if_true]
      rfl
    · rw [updateTask_eq_core st taskId userId userRole {} now a hacc]
      rw [updateTaskCore_ok_of_steps st a userId {} now none
        (by simp [h1, h2, hrole])
        (updateStatusStep_absent a _ {} now rfl)
        (verifyAssigneeChange_absent st a {} rfl)]
      rfl

/-- C5 witness: the amended theorem at the concrete store: MANAGER member 30
(not creator, not owner, not ADMIN) cannot delete task 5 but can update
it. -/
theorem deleteTask_permission_characterization_witness :
    deleteTask sampleDb 5 30 "USER"
      = .error (errors.forbidden
          "You don\x27t have permission to delete this task")
    ∧ (updateTask sampleDb 5 30 "USER" {} 99).isOk = true :=
  (deleteTask_permission_characterization sampleDb 5 30 "USER" 99
    ⟨sampleTask, sampleProject, false, true, false, false⟩ rfl).2
    (by decide) (by decide) (by decide) (by decide)

/-- C10: a current assignee who is not owner/ADMIN and holds no
OWNER/MANAGER project role is rejected Forbidden by the dedicated
AssignTask entry point, yet the same requester can change assignedTo to any
existing project member through the generic Update, whose only
assignment-related check is that the new assignee exists and is a project
member. -/
theorem assignee_reassigns_via_update_not_assignTask (st : DB)
    (taskId userId : Nat) (userRole : String) (now target : Nat) (a : Access)
    (hacc : checkTaskAccess st taskId userId userRole = .ok a)
    (hassignee : a.task.assignedTo = some userId)
    (hadmin : a.isAdmin = false) (howner : a.isOwner = false)
    (hrole : (projectRoleOf a.project userId == some "OWNER") = false)
    (hrole2 : (projectRoleOf a.project userId == some "MANAGER") = false)
    (hu : st.users.contains target = true)
    (hm : a.project.members.any (fun m => m.userId == target) = true) :
    assignTask st taskId userId userRole target
      = .error (errors.forbidden "You don\x27t have permission to assign tasks")
    ∧ ∃ out, updateTask st taskId userId userRole
        { assignedTo := some (some target) } now = .ok out
      ∧ out.val.assignedTo = some target := by
  have hflags := checkTaskAccess_ok_spec st taskId userId userRole a hacc
  have ha' : a.isAssignee = true := by
    rw [hflags.2.2.2.2.2, hassignee]
    simp
  constructor
  · unfold assignTask
    rw [hacc]
    simp only [hadmin, howner, hrole, hrole2, Bool.or_false, Bool.false_or,
      Bool.or_self, Bool.not_false, if_true]
  · have hupd := updateTaskCore_ok_of_steps st a userId
      ({ assignedTo := some (some target) } : UpdateTaskData) now none
      (by simp [ha'])
      (updateStatusStep_absent a _ _ now rfl)
      (verifyAssigneeChange_member st a _ target rfl hu hm)
    rw [updateTask_eq_core st taskId userId userRole _ now a hacc]
    exact ⟨_, hupd, rfl⟩

/-- C10 witness: the theorem at the concrete store: assignee 20 (plain
MEMBER) cannot use AssignTask but reassigns task 5 to member 30 through
Update. -/
theorem assignee_reassigns_via_update_not_assignTask_witness :
    assignTask sampleDb 5 20 "USER" 30
      = .error (errors.forbidden "You don\x27t have permission to assign tasks")
    ∧ ∃ out, updateTask sampleDb 5 20 "USER"
        { assignedTo := some (some 30) } 99 = .ok out
      ∧ out.val.assignedTo = some 30 :=
  assignee_reassigns_via_update_not_assignTask sampleDb 5 20 "USER" 99 30
    ⟨sampleTask, sampleProject, false, true, false, true⟩ rfl rfl rfl rfl
    rfl rfl (by decide) (by decide)

/-- C7: for both list endpoints (project tasks and user projects), with
limit L ≥ 1 the returned `pages` equals the ceiling division
ceil(total / L) (Mathlib\x27s `⌈/⌉` on naturals, equal to
(total + L - 1) / L), and the page holds at most L items. -/
theorem pagination_pages_ceil (st : DB) :
    (∀ (projectId userId : Nat) (userRole : String) (q : TaskListQuery)
      (r : TaskListResult), 1 ≤ q.limit →
      getProjectTasks st projectId userId userRole q = .ok r →
      r.pagination.pages = r.pagination.total ⌈/⌉ q.limit
        ∧ r.data.length ≤ q.limit)
    ∧ (∀ (userId : Nat) (userRole status : String) (page limit : Nat),
      1 ≤ limit →
      (getUserProjects st userId userRole page limit status).pagination.pages
          = (getUserProjects st userId userRole page limit
              status).pagination.total ⌈/⌉ limit
        ∧ (getUserProjects st userId userRole page limit status).data.length
            ≤ limit) := by
  constructor
  · intro projectId userId userRole q r hl h
    unfold getProjectTasks at h
    split at h
    · cases h
    · simp only at h
      split at h
      · cases h
      · injection h with h'
        subst h'
        exact ⟨mathCeil_eq _ _ hl, List.length_take_le _ _⟩
  · intro userId userRole status page limit hl
    unfold getUserProjects
    exact ⟨mathCeil_eq _ _ hl, List.length_take_le _ _⟩

/-- C7 witness: the theorem at the concrete store, for a task list with the
default limit 10 and a project list with limit 3. -/
theorem pagination_pages_ceil_witness :
    getProjectTasks sampleDb 1 10 "USER" {}
      = .ok ⟨[sampleTask], ⟨1, 10, 1, 1⟩⟩
    ∧ (1 : Nat) = (1 + 10 - 1) / 10
    ∧ [sampleTask].length ≤ 10
    ∧ (getUserProjects sampleDb 10 "ADMIN" 1 3 "ACTIVE").pagination.pages
        = ((getUserProjects sampleDb 10 "ADMIN" 1 3
            "ACTIVE").pagination.total + 3 - 1) / 3 :=
  ⟨rfl,
   ((pagination_pages_ceil sampleDb).1 1 10 "USER" {}
     ⟨[sampleTask], ⟨1, 10, 1, 1⟩⟩ (by decide) rfl).1,
   ((pagination_pages_ceil sampleDb).1 1 10 "USER" {}
     ⟨[sampleTask], ⟨1, 10, 1, 1⟩⟩ (by decide) rfl).2,
   ((pagination_pages_ceil sampleDb).2 10 "ADMIN" "ACTIVE" 1 3 (by decide)).1⟩

/-- C3: an accepted status change writes the new status together with
completedAt = now for DONE and completedAt = absent otherwise, in the same
write; consequently the store-wide invariant "completedAt present iff
status DONE" is preserved by every successful task operation (create,
update, assign, comment, delete). -/
theorem completedAt_iff_done (st : DB) :
    (∀ (taskId userId : Nat) (userRole : String) (data : UpdateTaskData)
      (now : Nat) (a : Access) (s : String) (out : Out Task),
      checkTaskAccess st taskId userId userRole = .ok a →
      data.status = some s → s ≠ a.task.status →
      updateTask st taskId userId userRole data now = .ok out →
      out.val.status = s
        ∧ out.val.completedAt = (if s == "DONE" then some now else none))
    ∧ (tasksConsistent st = true →
      (∀ (projectId userId : Nat) (userRole : String) (data : CreateTaskData)
        (newTaskId now : Nat) (out : Out Task),
        createTask st projectId userId userRole data newTaskId now = .ok out →
        tasksConsistent out.db = true)
      ∧ (∀ (taskId userId : Nat) (userRole : String) (data : UpdateTaskData)
        (now : Nat) (out : Out Task),
        updateTask st taskId userId userRole data now = .ok out →
        tasksConsistent out.db = true)
      ∧ (∀ (taskId userId : Nat) (userRole : String) (target : Nat)
        (out : Out Task),
        assignTask st taskId userId userRole target = .ok out →
        tasksConsistent out.db = true)
      ∧ (∀ (taskId userId : Nat) (userRole : String) (text : String)
        (now : Nat) (out : Out Task),
        addTaskComment st taskId userId userRole text now = .ok out →
        tasksConsistent out.db = true)
      ∧ (∀ (taskId userId : Nat) (userRole : String) (out : Out Unit),
        deleteTask st taskId userId userRole = .ok out →
        tasksConsistent out.db = true)) := by
  constructor
  · intro taskId userId userRole data now a s out hacc hs hne hok
    rw [updateTask_eq_core st taskId userId userRole data now a hacc] at hok
    obtain ⟨cp, hcp, hout⟩ := updateTaskCore_ok_shape st a userId data now out hok
    rcases updateStatusStep_ok_spec a _ data now cp hcp with ⟨_, hgd⟩ | ⟨s', hs', hcp'⟩
    · rw [hs] at hgd
      simp only [Option.getD_some] at hgd
      exact absurd hgd hne
    · rw [hs] at hs'
      injection hs' with h1
      subst h1
      subst hout
      constructor
      · simp [applyPatch, hs]
      · simp [applyPatch, hcp']
  · intro hcons
    refine ⟨?_, ?_, ?_, ?_, ?_⟩
    · intro projectId userId userRole data newTaskId now out hok
      obtain ⟨hdb, hstatus, hcomp⟩ :=
        createTask_ok_shape st projectId userId userRole data newTaskId now
          out hok
      rw [tasksConsistent_iff]
      intro t ht
      rw [hdb] at ht
      simp only [List.mem_append, List.mem_singleton] at ht
      rcases ht with ht | rfl
      · exact (tasksConsistent_iff st).mp hcons t ht
      · simp [completedIffDone, hstatus, hcomp]
    · intro taskId userId userRole data now out hok
      unfold updateTask at hok
      split at hok
      · cases hok
      · rename_i a hacc
        obtain ⟨cp, hcp, hout⟩ :=
          updateTaskCore_ok_shape st a userId data now out hok
        subst hout
        have hmem : a.task ∈ st.tasks :=
          (checkTaskAccess_ok_spec _ _ _ _ _ hacc).1
        have hbase := (tasksConsistent_iff st).mp hcons a.task hmem
        apply tasksConsistent_updateTaskInDb st _ _ hcons
        rcases updateStatusStep_ok_spec a _ data now cp hcp with
          ⟨hcpn, hgd⟩ | ⟨s, hs, hcp'⟩
        · subst hcpn
          simp only [completedIffDone] at hbase
          simp only [completedIffDone, applyPatch, Option.getD_none]
          rw [hgd]
          exact hbase
        · subst hcp'
          simp only [completedIffDone, applyPatch, hs, Option.getD_some]
          cases hdone : (s == "DONE") <;> simp [hdone]
    · intro taskId userId userRole target out hok
      unfold assignTask at hok
      split at hok
      · cases hok
      · rename_i a hacc
        simp only at hok
        split at hok
        · cases hok
        · split at hok
          · cases hok
          · split at hok
            · cases hok
            · injection hok with h'
              subst h'
              have hmem : a.task ∈ st.tasks :=
                (checkTaskAccess_ok_spec _ _ _ _ _ hacc).1
              have hbase := (tasksConsistent_iff st).mp hcons a.task hmem
              apply tasksConsistent_updateTaskInDb st _ _ hcons
              simp only [completedIffDone] at hbase ⊢
              exact hbase
    · intro taskId userId userRole text now out hok
      unfold addTaskComment at hok
      split at hok
      · cases hok
      · rename_i a hacc
        injection hok with h'
        subst h'
        have hmem : a.task ∈ st.tasks :=
          (checkTaskAccess_ok_spec _ _ _ _ _ hacc).1
        have hbase := (tasksConsistent_iff st).mp hcons a.task hmem
        apply tasksConsistent_updateTaskInDb st _ _ hcons
        simp only [completedIffDone] at hbase ⊢
        exact hbase
    · intro taskId userId userRole out hok
      unfold deleteTask at hok
      split at hok
      · cases hok
      · simp only at hok
        split at hok
        · cases hok
        · injection hok with h'
          subst h'
          rw [tasksConsistent_iff]
          intro t ht
          simp only [List.mem_filter] at ht
          exact (tasksConsistent_iff st).mp hcons t ht.1

/-- C3 witness: the theorem at the concrete store: assignee 20 moves task 5
from IN_PROGRESS to DONE at time 99; the write carries status DONE and
completedAt 99, and the consistency invariant survives. -/
theorem completedAt_iff_done_witness :
    updateTask inProgressDb 5 20 "USER" { status := some "DONE" } 99
      = .ok ⟨updateTaskInDb inProgressDb 5
              (applyPatch inProgressTask { status := some "DONE" }
                (some (some 99))),
             applyPatch inProgressTask { status := some "DONE" }
               (some (some 99)), []⟩
    ∧ (applyPatch inProgressTask { status := some "DONE" }
        (some (some 99))).status = "DONE"
    ∧ (applyPatch inProgressTask { status := some "DONE" }
        (some (some 99))).completedAt = some 99
    ∧ tasksConsistent inProgressDb = true
    ∧ tasksConsistent (updateTaskInDb inProgressDb 5
        (applyPatch inProgressTask { status := some "DONE" }
          (some (some 99)))) = true := by
  have happ := (completedAt_iff_done inProgressDb).1 5 20 "USER"
    { status := some "DONE" } 99
    ⟨inProgressTask, sampleProject, false, true, false, true⟩ "DONE"
    ⟨updateTaskInDb inProgressDb 5
      (applyPatch inProgressTask { status := some "DONE" } (some (some 99))),
     applyPatch inProgressTask { status := some "DONE" } (some (some 99)), []⟩
    rfl rfl (by decide) rfl
  have hupd := ((completedAt_iff_done inProgressDb).2 (by decide)).2.1
    5 20 "USER" { status := some "DONE" } 99
    ⟨updateTaskInDb inProgressDb 5
      (applyPatch inProgressTask { status := some "DONE" } (some (some 99))),
     applyPatch inProgressTask { status := some "DONE" } (some (some 99)), []⟩
    rfl
  exact ⟨rfl, happ.1, happ.2, by decide, hupd⟩

/-- C6: the side-channel helpers are indeed failure-tolerant —
addNotificationJob and invalidateProjectCaches swallow every failure — but
the Task manager write operations never call them: a successful updateTask
or createTask performs no cache invalidation and enqueues no notification,
contradicting the claim that every successful write triggers both (the
repository\x27s own DAY_4_IMPLEMENTATION.md documents them as automatic). -/
theorem write_ops_no_side_channel (st : DB) :
    (∀ (taskId userId : Nat) (userRole : String) (data : UpdateTaskData)
      (now : Nat) (out : Out Task),
      updateTask st taskId userId userRole data now = .ok out → out.fx = [])
    ∧ (∀ (projectId userId : Nat) (userRole : String) (data : CreateTaskData)
      (newTaskId now : Nat) (out : Out Task),
      createTask st projectId userId userRole data newTaskId now = .ok out →
      out.fx = [])
    ∧ (∀ queueInitialized enqueueFails,
      addNotificationJob queueInitialized enqueueFails = .ok ())
    ∧ (∀ deleteFails, invalidateProjectCaches deleteFails = .ok ()) := by
  refine ⟨?_, ?_, ?_, ?_⟩
  · intro taskId userId userRole data now out hok
    unfold updateTask at hok
    split at hok
    · cases hok
    · obtain ⟨cp, _, hout⟩ := updateTaskCore_ok_shape st _ _ data now out hok
      rw [hout]
  · intro projectId userId userRole data newTaskId now out hok
    unfold createTask at hok
    split at hok
    · cases hok
    · simp only at hok
      split at hok
      · cases hok
      · split at hok
        · cases hok
        · injection hok with h'
          subst h'
          rfl
  · intro q f
    cases q <;> cases f <;> rfl
  · intro d
    cases d <;> rfl

/-- C6 witness: a concrete successful update (assignee 20 renames task 5):
the operation succeeds and its list of side-channel calls is empty. -/
theorem write_ops_no_side_channel_witness :
    updateTask sampleDb 5 20 "USER" { title := some "Renamed" } 99
      = .ok ⟨updateTaskInDb sampleDb 5
              (applyPatch sampleTask { title := some "Renamed" } none),
             applyPatch sampleTask { title := some "Renamed" } none, []⟩
    ∧ (⟨updateTaskInDb sampleDb 5
          (applyPatch sampleTask { title := some "Renamed" } none),
        applyPatch sampleTask { title := some "Renamed" } none,
        ([] : List SideEffect)⟩ : Out Task).fx = []
    ∧ addNotificationJob false true = .ok () :=
  ⟨rfl,
   (write_ops_no_side_channel sampleDb).1 5 20 "USER"
     { title := some "Renamed" } 99
     ⟨updateTaskInDb sampleDb 5
        (applyPatch sampleTask { title := some "Renamed" } none),
      applyPatch sampleTask { title := some "Renamed" } none, []⟩ rfl,
   (write_ops_no_side_channel sampleDb).2.2.1 false true⟩

end DTMS
